import Mathlib

/-!
Shallow embedding of the resilience/orchestration core of GhidraInsight
(`ghidrainsight/core/error_recovery.py`, `multi_region.py`,
`distributed_tasks.py`), together with theorems settling the frozen
claims about it.  Python `None` is modelled by a dedicated value
constructor, exceptions by explicit `Except`, and the mutable
per-manager state (error history, region status) by explicit state
passing.
-/

namespace GhidraInsight

/-- Severity levels, from `ErrorSeverity` (error_recovery.py lines 14-19). -/
inductive ErrorSeverity where
  | low
  | medium
  | high
  | critical
deriving DecidableEq

/-- Recovery strategies, from `RecoveryStrategy` (error_recovery.py lines 22-27). -/
inductive RecoveryStrategy where
  | retry
  | fallback
  | skip
  | escalate
deriving DecidableEq

/-- The `.value` string of each `RecoveryStrategy` enum member. -/
def RecoveryStrategy.value : RecoveryStrategy → String
  | .retry => "retry"
  | .fallback => "fallback"
  | .skip => "skip"
  | .escalate => "escalate"

/-- The `context` dict built in `_create_error_from_exception`
(error_recovery.py lines 159-164); the captured traceback string is
omitted as it carries no information used anywhere. -/
structure ErrorContext where
  operation : String
  args_count : Nat
  kwargs_keys : List String
deriving DecidableEq

/-- The `AnalysisError` dataclass (error_recovery.py lines 30-41). -/
structure AnalysisError where
  error_type : String
  message : String
  severity : ErrorSeverity
  recoverable : Bool
  recovery_strategy : RecoveryStrategy
  context : ErrorContext
  timestamp : Nat
  retry_count : Nat := 0
  max_retries : Nat := 3
deriving DecidableEq

/-- `AnalysisError.should_retry` (error_recovery.py lines 43-47). -/
def AnalysisError.should_retry (e : AnalysisError) : Bool :=
  e.recoverable && e.recovery_strategy == .retry && e.retry_count < e.max_retries

/-- `AnalysisError.increment_retry` (error_recovery.py lines 49-51). -/
def AnalysisError.increment_retry (e : AnalysisError) : AnalysisError :=
  { e with retry_count := e.retry_count + 1 }

/-- A raised Python exception: its type name (`type(e).__name__`) and
its string rendering (`str(e)`). -/
structure PyExc where
  name : String
  msg : String
deriving DecidableEq

/-- Leading-match test: does `haystack` start with `needle`? -/
def matchesAt (needle haystack : List Char) : Bool :=
  match needle, haystack with
  | [], _ => true
  | _ :: _, [] => false
  | n :: ns, h :: hs => n == h && matchesAt ns hs

/-- Substring containment on character lists (Python `needle in haystack`). -/
def containsSub (needle haystack : List Char) : Bool :=
  match haystack with
  | [] => needle.isEmpty
  | _ :: hs => matchesAt needle haystack || containsSub needle hs

/-- Python's `needle in haystack` on strings. -/
def substrIn (needle haystack : String) : Bool :=
  containsSub needle.toList haystack.toList

/-- Python's `str.lower()` as applied to an exception type name
(ASCII identifiers), written so that it evaluates by reduction. -/
def py_to_lower (s : String) : String :=
  String.mk (s.toList.map Char.toLower)

/-- `ErrorRecoveryManager._create_error_from_exception`
(error_recovery.py lines 124-166): lower-case the exception's type
name and classify it by priority-ordered substring matching. -/
def create_error_from_exception (e : PyExc) (operation_name : String)
    (args_count : Nat) (kwargs_keys : List String) (now : Nat) : AnalysisError :=
  let error_type := (py_to_lower e.name)
  let c :=
    if substrIn "timeout" error_type then
      (ErrorSeverity.high, true, RecoveryStrategy.retry)
    else if substrIn "memory" error_type then
      (ErrorSeverity.critical, true, RecoveryStrategy.fallback)
    else if substrIn "network" error_type || substrIn "connection" error_type then
      (ErrorSeverity.medium, true, RecoveryStrategy.retry)
    else if substrIn "database" error_type then
      (ErrorSeverity.high, true, RecoveryStrategy.retry)
    else
      (ErrorSeverity.medium, false, RecoveryStrategy.escalate)
  { error_type := error_type
    message := e.msg
    severity := c.1
    recoverable := c.2.1
    recovery_strategy := c.2.2
    context := ⟨operation_name, args_count, kwargs_keys⟩
    timestamp := now }

/-- Spec-side formalisation of the classification contract: an ordered
list of (substring alternatives, outcome) rules, the first matching
rule winning. -/
def classification_rules :
    List (List String × (ErrorSeverity × Bool × RecoveryStrategy)) :=
  [ (["timeout"], (.high, true, .retry))
  , (["memory"], (.critical, true, .fallback))
  , (["network", "connection"], (.medium, true, .retry))
  , (["database"], (.high, true, .retry)) ]

/-- Spec-side classifier: first rule whose substring list matches wins;
otherwise the generic default (medium, non-recoverable, escalate). -/
def classify_spec (error_type : String) : ErrorSeverity × Bool × RecoveryStrategy :=
  match classification_rules.find?
      (fun rule => rule.1.any (fun n => substrIn n error_type)) with
  | some rule => rule.2
  | none => (.medium, false, .escalate)

/-- C3: for every raised failure, the classification performed by
`create_error_from_exception` is a pure function of the lower-cased
failure type name, and agrees with the priority-ordered first-match
substring rules (timeout ↦ high/recoverable/retry, memory ↦
critical/recoverable/fallback, network|connection ↦
medium/recoverable/retry, database ↦ high/recoverable/retry, default ↦
medium/non-recoverable/escalate), the earliest matching rule winning. -/
theorem classification_is_priority_substring_match
    (e : PyExc) (opname : String) (ac : Nat) (kk : List String) (now : Nat) :
    (create_error_from_exception e opname ac kk now).error_type = (py_to_lower e.name) ∧
    ((create_error_from_exception e opname ac kk now).severity,
     (create_error_from_exception e opname ac kk now).recoverable,
     (create_error_from_exception e opname ac kk now).recovery_strategy)
      = classify_spec (py_to_lower e.name) := by
  refine ⟨rfl, ?_⟩
  unfold create_error_from_exception classify_spec classification_rules
  by_cases h1 : substrIn "timeout" (py_to_lower e.name)
  · simp [h1, List.find?]
  · by_cases h2 : substrIn "memory" (py_to_lower e.name)
    · simp [h1, h2, List.find?]
    · by_cases h3 : substrIn "network" (py_to_lower e.name)
      · simp [h1, h2, h3, List.find?]
      · by_cases h4 : substrIn "connection" (py_to_lower e.name)
        · simp [h1, h2, h3, h4, List.find?]
        · by_cases h5 : substrIn "database" (py_to_lower e.name)
          · simp [h1, h2, h3, h4, h5, List.find?]
          · simp [h1, h2, h3, h4, h5, List.find?]

/-! ## Region manager (multi_region.py) -/

/-- The region-related configuration inputs (read once at startup,
see `Settings.region` as used throughout multi_region.py). -/
structure RegionConfig where
  enabled : Bool
  regions : List String
  current_region : String
  primary_region : Option String
  replication_enabled : Bool
  replication_regions : List String
  cross_region_timeout : Nat
deriving DecidableEq

/-- The `RegionStatus` dataclass (multi_region.py lines 15-23).
Latency is modelled as an integer count of milliseconds and the check
time as an abstract clock value. -/
structure RegionStatus where
  region : String
  url : String
  healthy : Bool := false
  latency_ms : Int := 0
  last_check : Option Nat := none
  error : Option String := none
deriving DecidableEq

/-- Outcome of one HTTP probe of `<regionUrl>/health`, together with
the latency measured by the surrounding timer: either a response with
a status code, or a raised exception with its message. -/
inductive ProbeOutcome where
  | response (status : Nat) (latency : Int)
  | exn (msg : String) (latency : Int)
deriving DecidableEq

/-- `MultiRegionManager.check_region_health` (multi_region.py lines
75-112), acting on one region's status record.  `session_ok` models
the guard `self._session and region in self.regions`: when it fails
the method returns `False` without touching the status. -/
def check_region_health (session_ok : Bool) (st : RegionStatus)
    (outcome : ProbeOutcome) (now : Nat) : RegionStatus × Bool :=
  if !session_ok then (st, false)
  else
    match outcome with
    | .response status latency =>
      if status == 200 then
        ({ st with healthy := true, latency_ms := latency,
                   last_check := some now, error := none }, true)
      else
        ({ st with healthy := false,
                   error := some ("HTTP " ++ toString status) }, false)
    | .exn msg latency =>
      ({ st with healthy := false, latency_ms := latency,
                 error := some msg }, false)

/-- `MultiRegionManager.is_current_region_primary`
(multi_region.py lines 227-235). -/
def is_current_region_primary (cfg : RegionConfig) : Bool :=
  if !cfg.enabled then true
  else
    match cfg.primary_region with
    | none => true
    | some p => cfg.current_region == p

/-- The claim's reading of `isCurrentRegionPrimary`: true iff
replication is disabled, or no primary is configured, or the current
region equals the primary. -/
def is_primary_per_claim (cfg : RegionConfig) : Bool :=
  !cfg.replication_enabled ||
    (match cfg.primary_region with
     | none => true
     | some p => cfg.current_region == p)

/-- Python's `min(xs, key=f)` on a nonempty list `a :: l`: the first
element attaining the minimal key (a later element replaces the
accumulator only when its key is strictly smaller). -/
def pyMinBy {α : Type} (f : α → Int) (a : α) (l : List α) : α :=
  l.foldl (fun acc x => if f x < f acc then x else acc) a

/-- `MultiRegionManager.get_best_region` (multi_region.py lines
131-153).  The manager's `regions` dict is modelled as an
insertion-ordered association list. -/
def get_best_region (cfg : RegionConfig)
    (regions : List (String × RegionStatus)) : String :=
  if !cfg.enabled then cfg.current_region
  else
    let healthy_regions :=
      (regions.filter (fun p => p.2.healthy)).map (fun p => (p.1, p.2.latency_ms))
    match healthy_regions with
    | [] => cfg.current_region
    | h :: t => (pyMinBy (fun x => x.2) h t).1

/-- A fixed region-status record used by concrete counterexamples. -/
def stC4 : RegionStatus :=
  { region := "eu-west", url := "https://ghidrainsight-eu-west.example.com"
    healthy := false, latency_ms := 7, last_check := none, error := none }

/-- C4 counterexample: the claim says the measured latency is recorded
in the region's status regardless of the probe's outcome, but on a
non-200 response (here HTTP 500 with measured latency 99 ms) the
status keeps its previous latency (7 ms): only `healthy` and the error
text are updated. -/
theorem check_region_health_latency_not_recorded_on_non200 :
    (check_region_health true stC4 (.response 500 99) 5).1.latency_ms = 7 ∧
    (7 : Int) ≠ 99 ∧
    (check_region_health true stC4 (.response 500 99) 5).1.healthy = false ∧
    (check_region_health true stC4 (.response 500 99) 5).1.error = some "HTTP 500" := by
  refine ⟨rfl, by decide, rfl, rfl⟩

/-- C4 amended: `check_region_health` performs one probe; on a 200
response it sets `healthy=true`, records the measured latency and
check time and clears the error; on a non-200 response it sets
`healthy=false` and records the error text but leaves the latency
unchanged; on an exception it sets `healthy=false`, records the
measured latency and records the error text. -/
theorem check_region_health_cases (st : RegionStatus)
    (status : Nat) (lat : Int) (msg : String) (now : Nat)
    (hs : status ≠ 200) :
    check_region_health true st (.response 200 lat) now
      = ({ st with healthy := true, latency_ms := lat,
                   last_check := some now, error := none }, true) ∧
    check_region_health true st (.response status lat) now
      = ({ st with healthy := false,
                   error := some ("HTTP " ++ toString status) }, false) ∧
    check_region_health true st (.exn msg lat) now
      = ({ st with healthy := false, latency_ms := lat,
                   error := some msg }, false) := by
  refine ⟨rfl, ?_, rfl⟩
  simp [check_region_health, hs]

/-- Witness for `check_region_health_cases` at a concrete status
record, a 503 response, and an exception message. -/
theorem check_region_health_cases_witness :
    (503 : Nat) ≠ 200 ∧
    (check_region_health true stC4 (.response 200 12) 5
      = ({ stC4 with healthy := true, latency_ms := 12,
                     last_check := some 5, error := none }, true) ∧
     check_region_health true stC4 (.response 503 12) 5
      = ({ stC4 with healthy := false,
                     error := some ("HTTP " ++ toString 503) }, false) ∧
     check_region_health true stC4 (.exn "boom" 12) 5
      = ({ stC4 with healthy := false, latency_ms := 12,
                     error := some "boom" }, false)) :=
  ⟨by decide, check_region_health_cases stC4 503 12 "boom" 5 (by decide)⟩

/-- A configuration witnessing that `is_current_region_primary` tests
multi-region enablement, not replication enablement. -/
def cfgC5 : RegionConfig :=
  { enabled := true, regions := ["c", "p"], current_region := "c"
    primary_region := some "p", replication_enabled := false
    replication_regions := [], cross_region_timeout := 30 }

/-- C5 counterexample: with multi-region enabled, replication
disabled, primary "p" and current region "c", the code returns
`false`, but the claim ("true if replication is disabled, or ...")
predicts `true`. -/
theorem is_current_region_primary_ne_claim :
    is_current_region_primary cfgC5 = false ∧ is_primary_per_claim cfgC5 = true := by
  constructor <;> rfl

/-- C5 amended: `is_current_region_primary` returns true iff
multi-region support is disabled, or no primary region is configured,
or the configured current region equals the configured primary. -/
theorem is_current_region_primary_iff (cfg : RegionConfig) :
    is_current_region_primary cfg = true ↔
      (cfg.enabled = false ∨ cfg.primary_region = none ∨
        cfg.primary_region = some cfg.current_region) := by
  rcases cfg with ⟨en, rs, cur, prim, rep, reps, t0⟩
  cases en <;> cases prim <;> simp [is_current_region_primary]
  exact eq_comm

/-- Unfolding `pyMinBy` over a cons cell. -/
lemma pyMinBy_cons {α : Type} (f : α → Int) (a x : α) (xs : List α) :
    pyMinBy f a (x :: xs) = pyMinBy f (if f x < f a then x else a) xs := rfl

/-- `pyMinBy` returns the first element of `a :: l` attaining the
minimal key: everything before it is strictly larger, everything after
it is at least as large. -/
lemma pyMinBy_first_min {α : Type} (f : α → Int) (l : List α) : ∀ a : α,
    ∃ pre post, a :: l = pre ++ pyMinBy f a l :: post ∧
      (∀ x ∈ pre, f (pyMinBy f a l) < f x) ∧
      (∀ x ∈ post, f (pyMinBy f a l) ≤ f x) := by
  induction l with
  | nil =>
    intro a
    exact ⟨[], [], rfl, by simp, by simp⟩
  | cons x xs ih =>
    intro a
    by_cases hx : f x < f a
    · have h : pyMinBy f a (x :: xs) = pyMinBy f x xs := by
        rw [pyMinBy_cons, if_pos hx]
      obtain ⟨pre, post, hdec, hpre, hpost⟩ := ih x
      have hmx : f (pyMinBy f x xs) ≤ f x := by
        cases pre with
        | nil =>
          have h2 : x = pyMinBy f x xs ∧ xs = post := by simpa using hdec
          rw [← h2.1]
        | cons p pre' =>
          have h2 : x = p ∧ xs = pre' ++ pyMinBy f x xs :: post := by
            simpa using hdec
          have h3 := hpre p (by simp)
          rw [← h2.1] at h3
          exact le_of_lt h3
      refine ⟨a :: pre, post, ?_, ?_, ?_⟩
      · rw [h, List.cons_append, ← hdec]
      · intro y hy
        rw [h]
        rcases List.mem_cons.mp hy with rfl | hy'
        · exact lt_of_le_of_lt hmx hx
        · exact hpre y hy'
      · intro y hy
        rw [h]
        exact hpost y hy
    · have h : pyMinBy f a (x :: xs) = pyMinBy f a xs := by
        rw [pyMinBy_cons, if_neg hx]
      have hax : f a ≤ f x := not_lt.mp hx
      obtain ⟨pre, post, hdec, hpre, hpost⟩ := ih a
      cases pre with
      | nil =>
        have ham : a = pyMinBy f a xs ∧ xs = post := by simpa using hdec
        refine ⟨[], x :: xs, ?_, by simp, ?_⟩
        · rw [List.nil_append, h, ← ham.1]
        · intro y hy
          rw [h]
          rcases List.mem_cons.mp hy with rfl | hy'
          · rw [← ham.1]; exact hax
          · exact hpost y (ham.2 ▸ hy')
      | cons p pre' =>
        have hap : a = p ∧ xs = pre' ++ pyMinBy f a xs :: post := by
          simpa using hdec
        refine ⟨a :: x :: pre', post, ?_, ?_, ?_⟩
        · rw [h]
          conv_lhs => rw [hap.2]
          simp
        · intro y hy
          rw [h]
          have hma : f (pyMinBy f a xs) < f a := by
            have h3 := hpre p (by simp)
            rw [← hap.1] at h3
            exact h3
          rcases List.mem_cons.mp hy with rfl | hy'
          · exact hma
          · rcases List.mem_cons.mp hy' with rfl | hy''
            · exact lt_of_lt_of_le hma hax
            · exact hpre y (by simp [hy''])
        · intro y hy
          rw [h]
          exact hpost y hy

/-- `pyMinBy` commutes with mapping a key-preserving function over the
list. -/
lemma pyMinBy_map {α β : Type} (g : β → α) (f : α → Int) (l : List β) :
    ∀ a : β, pyMinBy f (g a) (l.map g)
      = g (pyMinBy (fun b => f (g b)) a l) := by
  induction l with
  | nil => intro a; rfl
  | cons x xs ih =>
    intro a
    show pyMinBy f (if f (g x) < f (g a) then g x else g a) (xs.map g)
        = g (pyMinBy (fun b => f (g b)) (if f (g x) < f (g a) then x else a) xs)
    by_cases hx : f (g x) < f (g a)
    · rw [if_pos hx, if_pos hx]
      exact ih x
    · rw [if_neg hx, if_neg hx]
      exact ih a

/-- C6: `get_best_region` returns the configured current region when
no region is healthy, and otherwise (with multi-region enabled) the
name of a healthy region whose latency is minimal, ties broken in
favour of the first such region in iteration order (every earlier
healthy region is strictly slower, every later one at least as slow). -/
theorem get_best_region_picks_first_min
    (cfg : RegionConfig) (regions : List (String × RegionStatus)) :
    (regions.filter (fun p => p.2.healthy) = [] →
      get_best_region cfg regions = cfg.current_region) ∧
    (cfg.enabled = true →
      regions.filter (fun p => p.2.healthy) ≠ [] →
      ∃ pre b post,
        regions.filter (fun p => p.2.healthy) = pre ++ b :: post ∧
        get_best_region cfg regions = b.1 ∧
        (∀ r ∈ pre, b.2.latency_ms < r.2.latency_ms) ∧
        (∀ r ∈ post, b.2.latency_ms ≤ r.2.latency_ms)) := by
  constructor
  · intro hnil
    by_cases he : cfg.enabled
    · simp [get_best_region, he, hnil]
    · simp [get_best_region, he]
  · intro he hne
    obtain ⟨h, t, hht⟩ := List.exists_cons_of_ne_nil hne
    have hg : get_best_region cfg regions
        = (pyMinBy (fun b => b.2.latency_ms) h t).1 := by
      have h1 : get_best_region cfg regions
          = (pyMinBy (fun x : String × Int => x.2)
              ((fun p : String × RegionStatus => (p.1, p.2.latency_ms)) h)
              (t.map (fun p => (p.1, p.2.latency_ms)))).1 := by
        simp [get_best_region, he, hht]
      rw [pyMinBy_map (fun p : String × RegionStatus => (p.1, p.2.latency_ms))
        (fun x : String × Int => x.2) t h] at h1
      exact h1
    obtain ⟨pre, post, hdec, hpre, hpost⟩ :=
      pyMinBy_first_min (fun b : String × RegionStatus => b.2.latency_ms) t h
    refine ⟨pre, pyMinBy (fun b => b.2.latency_ms) h t, post, ?_, hg, hpre, hpost⟩
    rw [hht]
    exact hdec

/-- Configuration used in the concrete `get_best_region` example. -/
def cfgC6 : RegionConfig :=
  { enabled := true, regions := ["A", "B", "C"], current_region := "A"
    primary_region := none, replication_enabled := false
    replication_regions := [], cross_region_timeout := 30 }

/-- Region map used in the concrete `get_best_region` example:
A healthy at 50 ms, B healthy at 10 ms, C unhealthy. -/
def regionsC6 : List (String × RegionStatus) :=
  [ ("A", { region := "A", url := "https://a", healthy := true, latency_ms := 50 })
  , ("B", { region := "B", url := "https://b", healthy := true, latency_ms := 10 })
  , ("C", { region := "C", url := "https://c", healthy := false, latency_ms := 1 }) ]

/-- Witness for `get_best_region_picks_first_min` on the spec's
example; the selected region is `B`. -/
theorem get_best_region_picks_first_min_witness :
    cfgC6.enabled = true ∧
    regionsC6.filter (fun p => p.2.healthy) ≠ [] ∧
    (∃ pre b post,
      regionsC6.filter (fun p => p.2.healthy) = pre ++ b :: post ∧
      get_best_region cfgC6 regionsC6 = b.1 ∧
      (∀ r ∈ pre, b.2.latency_ms < r.2.latency_ms) ∧
      (∀ r ∈ post, b.2.latency_ms ≤ r.2.latency_ms)) ∧
    get_best_region cfgC6 regionsC6 = "B" :=
  ⟨rfl, by decide,
   (get_best_region_picks_first_min cfgC6 regionsC6).2 rfl (by decide),
   by rfl⟩

/-! ## Task dispatcher (distributed_tasks.py) -/

/-- Python dict assignment `d[k] = x` on an insertion-ordered
association list: overwrite in place when the key exists, append
otherwise. -/
def dictSet {v : Type} (d : List (String × v)) (k : String) (x : v) :
    List (String × v) :=
  if d.any (fun p => p.1 == k) then
    d.map (fun p => if p.1 == k then (k, x) else p)
  else d ++ [(k, x)]

/-- Per-feature entry of the `results` dict in
`analyze_binary_parallel`: the engine's output, or the inline
`{"error": str(e)}` record when the engine raised. -/
inductive FeatureRecord (α : Type) where
  | ok (r : α)
  | err (msg : String)
deriving DecidableEq

/-- The envelope returned by `analyze_binary_parallel`
(distributed_tasks.py lines 77-82). -/
structure ParallelResult (α : Type) where
  features_analyzed : List String
  results : List (String × FeatureRecord α)
  success : Bool
  binary_size : Nat
deriving DecidableEq

/-- `analyze_binary_parallel` (distributed_tasks.py lines 56-89): run
the engine once per feature, catching each engine failure inside the
loop and recording it inline; the external analysis engine is the
parameter `engine`.  The `except` around the whole body (lines 84-89)
is unreachable in this model because nothing outside the per-feature
loop can fail. -/
def analyze_binary_parallel {α : Type}
    (engine : String → List Nat → Except String α)
    (binary_data : List Nat) (features : List String) : ParallelResult α :=
  let results := features.foldl
    (fun acc feature =>
      match engine feature binary_data with
      | .ok r => dictSet acc feature (.ok r)
      | .error e => dictSet acc feature (.err e)) []
  { features_analyzed := features
    results := results
    success := true
    binary_size := binary_data.length }

/-- The record `analyze_binary_parallel` stores for one feature,
written as a function of the engine's outcome on that feature alone. -/
def feature_record {α : Type} (engine : String → List Nat → Except String α)
    (bin : List Nat) (f : String) : FeatureRecord α :=
  match engine f bin with
  | .ok r => .ok r
  | .error e => .err e

/-- Folding Python dict assignment over fresh, pairwise-distinct keys
appends one entry per key in order. -/
lemma foldl_dictSet_eq_append {α : Type} (g : String → FeatureRecord α) :
    ∀ (features : List String) (acc : List (String × FeatureRecord α)),
      features.Nodup →
      (∀ f ∈ features, acc.any (fun p => p.1 == f) = false) →
      features.foldl (fun acc f => dictSet acc f (g f)) acc
        = acc ++ features.map (fun f => (f, g f)) := by
  intro features
  induction features with
  | nil =>
    intro acc _ _
    simp
  | cons f fs ih =>
    intro acc hnd hacc
    have hfacc : acc.any (fun p => p.1 == f) = false := hacc f (by simp)
    have hset : dictSet acc f (g f) = acc ++ [(f, g f)] := by
      simp [dictSet, hfacc]
    have hfresh : ∀ f' ∈ fs, (acc ++ [(f, g f)]).any (fun p => p.1 == f') = false := by
      intro f' hf'
      have h1 : acc.any (fun p => p.1 == f') = false := hacc f' (by simp [hf'])
      have h2 : f ≠ f' := by
        rintro rfl
        exact (List.nodup_cons.mp hnd).1 hf'
      simp [List.any_append, h1, h2]
    rw [List.foldl_cons, hset, ih (acc ++ [(f, g f)]) (List.Nodup.of_cons hnd) hfresh]
    simp

/-- C7: feature-mode dispatch records, for each listed feature (taken
pairwise distinct), exactly the record determined by the engine's
outcome on that feature alone — so one feature's failure never affects
another's entry — and returns an envelope with `success = true` even
when individual features failed. -/
theorem analyze_binary_parallel_isolates_failures {α : Type}
    (engine : String → List Nat → Except String α)
    (bin : List Nat) (features : List String) (hnd : features.Nodup) :
    (analyze_binary_parallel engine bin features).success = true ∧
    (analyze_binary_parallel engine bin features).features_analyzed = features ∧
    (analyze_binary_parallel engine bin features).results
      = features.map (fun f => (f, feature_record engine bin f)) ∧
    (analyze_binary_parallel engine bin features).binary_size = bin.length := by
  refine ⟨rfl, rfl, ?_, rfl⟩
  show features.foldl
      (fun acc feature =>
        match engine feature bin with
        | .ok r => dictSet acc feature (.ok r)
        | .error e => dictSet acc feature (.err e)) []
    = features.map (fun f => (f, feature_record engine bin f))
  have hbody : (fun (acc : List (String × FeatureRecord α)) (feature : String) =>
      match engine feature bin with
      | .ok r => dictSet acc feature (.ok r)
      | .error e => dictSet acc feature (.err e))
      = (fun acc f => dictSet acc f (feature_record engine bin f)) := by
    funext acc f
    cases h : engine f bin <;> simp [feature_record, h]
  rw [hbody, foldl_dictSet_eq_append (feature_record engine bin) features [] hnd
    (by intro f _; rfl)]
  simp

/-- An engine that succeeds on feature "a" and raises on feature "b",
as in the spec's example. -/
def engineC7 : String → List Nat → Except String Nat :=
  fun f bin => if f == "a" then .ok bin.length else .error "engine failure"

/-- Witness for `analyze_binary_parallel_isolates_failures`: features
`["a", "b"]` where the engine raises only on `"b"` yield
`{a: ok, b: error-record}` and `success = true`. -/
theorem analyze_binary_parallel_isolates_failures_witness :
    (["a", "b"] : List String).Nodup ∧
    ((analyze_binary_parallel engineC7 [0, 1] ["a", "b"]).success = true ∧
     (analyze_binary_parallel engineC7 [0, 1] ["a", "b"]).features_analyzed = ["a", "b"] ∧
     (analyze_binary_parallel engineC7 [0, 1] ["a", "b"]).results
       = [("a", .ok 2), ("b", .err "engine failure")] ∧
     (analyze_binary_parallel engineC7 [0, 1] ["a", "b"]).binary_size = 2) := by
  have h := analyze_binary_parallel_isolates_failures engineC7 [0, 1] ["a", "b"]
    (by decide)
  exact ⟨by decide, h.1, h.2.1, by rw [h.2.2.1]; rfl, h.2.2.2⟩

/-! ## Retry backoff schedule (error_recovery.py) -/

/-- The sleep computed by `_retry_with_backoff` for a given attempt
number (error_recovery.py lines 198-202): `min(1.0 * 2 ** attempt,
30.0)` seconds, modelled over the exact rationals. -/
def backoff_delay (attempt : Nat) : ℚ :=
  min ((1 : ℚ) * 2 ^ attempt) 30

/-- C8: the backoff delays for attempts 0 through 4 are exactly
1, 2, 4, 8 and 16 seconds, and attempt 5 is capped at 30 seconds. -/
theorem backoff_delay_sequence :
    (List.range 5).map backoff_delay = [1, 2, 4, 8, 16] ∧
    backoff_delay 5 = 30 := by
  constructor
  · show [backoff_delay 0, backoff_delay 1, backoff_delay 2,
          backoff_delay 3, backoff_delay 4] = [1, 2, 4, 8, 16]
    norm_num [backoff_delay]
  · norm_num [backoff_delay]

/-! ## Recovery manager (error_recovery.py) -/

/-- Python values flowing through the recovery layer; `pynone` is
Python's `None` (the module's "no result" signal as well as a
legitimate operation result). -/
inductive PyVal where
  | pynone
  | pybool (b : Bool)
  | pyint (n : Int)
  | pystr (s : String)
  | pylist (xs : List PyVal)
  | pydict (entries : List (String × PyVal))

/-- A fallible asynchronous operation: the outcome of its k-th
invocation (0-based), given the value bound to the `features` entry of
its keyword arguments (`none` when the key is absent). -/
abbrev Op := Nat → Option (List String) → Except PyExc PyVal

/-- Tags naming the five recovery-strategy coroutines installed by
`_setup_default_handlers`. -/
inductive StrategyTag where
  | retryBackoff
  | reduceComplexity
  | retryExpBackoff
  | simplerAnalysis
  | retryJitter
deriving DecidableEq

/-- The `recovery_strategies` dict built by `_setup_default_handlers`
(error_recovery.py lines 65-86): keyed by error *kind*. -/
def recovery_strategies : List (String × StrategyTag) :=
  [ ("timeout", .retryBackoff)
  , ("memory", .reduceComplexity)
  , ("network", .retryExpBackoff)
  , ("analysis", .simplerAnalysis)
  , ("database", .retryJitter) ]

/-- The re-invocation loop shared by `_retry_with_backoff` (lines
190-215), `_retry_with_exponential_backoff` (lines 217-246) and
`_retry_with_jitter` (lines 302-327): the three differ only in the
sleep they perform (see `backoff_delay`), which does not affect the
returned value.  `range(error.retry_count, error.max_retries)` is
evaluated once at loop entry, so the iteration count is fixed even
though `increment_retry` mutates the error. -/
def retry_loop (op : Op) (kwargs : Option (List String)) :
    AnalysisError → Nat → Nat → PyVal
  | _, _, 0 => .pynone
  | error, next, fuel + 1 =>
    match op next kwargs with
    | .ok v => v
    | .error _ => retry_loop op kwargs error.increment_retry (next + 1) fuel

/-- `_retry_with_backoff` (error_recovery.py lines 190-215). -/
def retry_with_backoff (error : AnalysisError) (op : Op)
    (kwargs : Option (List String)) : PyVal :=
  if error.should_retry then
    retry_loop op kwargs error 1 (error.max_retries - error.retry_count)
  else .pynone

/-- `_retry_with_exponential_backoff` (lines 217-246): same value
behaviour as `_retry_with_backoff`, with a jittered 60s-capped sleep. -/
def retry_with_exponential_backoff (error : AnalysisError) (op : Op)
    (kwargs : Option (List String)) : PyVal :=
  if error.should_retry then
    retry_loop op kwargs error 1 (error.max_retries - error.retry_count)
  else .pynone

/-- `_retry_with_jitter` (lines 302-327): same value behaviour with a
uniform 1-5s sleep. -/
def retry_with_jitter (error : AnalysisError) (op : Op)
    (kwargs : Option (List String)) : PyVal :=
  if error.should_retry then
    retry_loop op kwargs error 1 (error.max_retries - error.retry_count)
  else .pynone

/-- `_reduce_complexity_fallback` (error_recovery.py lines 248-273). -/
def reduce_complexity_fallback (op : Op)
    (kwargs : Option (List String)) : PyVal :=
  match kwargs with
  | some original_features =>
    if 1 < original_features.length then
      let reduced := original_features.take (original_features.length / 2)
      match op 1 (some reduced) with
      | .ok result =>
        .pydict [ ("fallback_applied", .pybool true)
                , ("reason", .pystr "memory_error")
                , ("reduced_features", .pylist (reduced.map .pystr))
                , ("result", result) ]
      | .error _ => .pynone
    else .pynone
  | none => .pynone

/-- `_fallback_to_simpler_analysis` (error_recovery.py lines 275-300). -/
def fallback_to_simpler_analysis (op : Op)
    (kwargs : Option (List String)) : PyVal :=
  match kwargs with
  | some _ =>
    let simple_features := ["basic_info", "strings"]
    match op 1 (some simple_features) with
    | .ok result =>
      .pydict [ ("fallback_applied", .pybool true)
              , ("reason", .pystr "analysis_error")
              , ("simple_features", .pylist (simple_features.map .pystr))
              , ("result", result) ]
    | .error _ => .pynone
  | none => .pynone

/-- Dispatch on a strategy tag to the corresponding coroutine. -/
def run_strategy : StrategyTag → AnalysisError → Op →
    Option (List String) → PyVal
  | .retryBackoff, e, op, kw => retry_with_backoff e op kw
  | .reduceComplexity, _, op, kw => reduce_complexity_fallback op kw
  | .retryExpBackoff, e, op, kw => retry_with_exponential_backoff e op kw
  | .simplerAnalysis, _, op, kw => fallback_to_simpler_analysis op kw
  | .retryJitter, e, op, kw => retry_with_jitter e op kw

/-- `ErrorRecoveryManager._attempt_recovery` (error_recovery.py lines
168-188): non-recoverable errors yield `None`; otherwise the strategy
dict is consulted with the *strategy name* (`error.recovery_strategy.
value`) as key, `None` being returned when the lookup misses.  The
`except` around the strategy call returns `None` if the strategy
raises; the modelled strategies cannot raise. -/
def attempt_recovery (error : AnalysisError) (op : Op)
    (kwargs : Option (List String)) : PyVal :=
  if !error.recoverable then .pynone
  else
    match recovery_strategies.lookup error.recovery_strategy.value with
    | none => .pynone
    | some tag => run_strategy tag error op kwargs

/-- `ErrorRecoveryManager.max_history_size` (error_recovery.py line 61). -/
def max_history_size : Nat := 1000

/-- The history-updating part of `ErrorRecoveryManager._log_error`
(error_recovery.py lines 349-363): append, then `pop(0)` once the
bound is exceeded. -/
def log_error (history : List AnalysisError) (error : AnalysisError) :
    List AnalysisError :=
  let h := history ++ [error]
  if max_history_size < h.length then h.drop 1 else h

/-- The `list(kwargs.keys())` recorded in the error context: the only
keyword argument in this model is `features`. -/
def kwargs_key_list (kwargs : Option (List String)) : List String :=
  match kwargs with
  | some _ => ["features"]
  | none => []

/-- `ErrorRecoveryManager.execute_with_recovery` (error_recovery.py
lines 88-122): invoke the operation; on success return its result; on
failure classify, log to the bounded history, attempt recovery, and
re-raise the original exception when the recovery result is `None`. -/
def execute_with_recovery (op : Op) (operation_name : String)
    (args_count : Nat) (kwargs : Option (List String)) (now : Nat)
    (history : List AnalysisError) :
    Except PyExc PyVal × List AnalysisError :=
  match op 0 kwargs with
  | .ok result => (.ok result, history)
  | .error e =>
    let error := create_error_from_exception e operation_name args_count
      (kwargs_key_list kwargs) now
    let history' := log_error history error
    match attempt_recovery error op kwargs with
    | .pynone => (.error e, history')
    | r => (.ok r, history')

/-- The strategy lookup in `_attempt_recovery` always misses: the dict
is keyed by the five error kinds while the lookup key is one of the
four strategy names. -/
lemma lookup_by_strategy_value_eq_none (e : AnalysisError) :
    recovery_strategies.lookup e.recovery_strategy.value = none := by
  cases e.recovery_strategy <;> rfl

/-- Recovery is therefore never achieved: `_attempt_recovery` returns
`None` on every input. -/
lemma attempt_recovery_eq_pynone (error : AnalysisError) (op : Op)
    (kwargs : Option (List String)) :
    attempt_recovery error op kwargs = .pynone := by
  unfold attempt_recovery
  rw [lookup_by_strategy_value_eq_none]
  split <;> rfl

/-- On any first-invocation failure, `execute_with_recovery` re-raises
the original exception after logging exactly one classified error. -/
lemma execute_with_recovery_reraises (op : Op) (opname : String)
    (ac : Nat) (kwargs : Option (List String)) (now : Nat)
    (history : List AnalysisError) (e : PyExc)
    (h0 : op 0 kwargs = .error e) :
    execute_with_recovery op opname ac kwargs now history
      = (.error e, log_error history
          (create_error_from_exception e opname ac (kwargs_key_list kwargs) now)) := by
  unfold execute_with_recovery
  rw [h0]
  simp [attempt_recovery_eq_pynone]

/-- An operation that raises `TimeoutError` on its first invocation
and succeeds (returning 42) on every later one. -/
def opC1 : Op := fun n _ =>
  match n with
  | 0 => .error ⟨"TimeoutError", "analysis timed out"⟩
  | _ + 1 => .ok (PyVal.pyint 42)

/-- C1 evidence: `opC1` fails once with a retry-classified failure and
would succeed on its next invocation, yet `execute_with_recovery`
raises the original exception to the caller instead of returning 42 —
the strategy lookup by strategy name misses the kind-keyed dict, so
the retry strategy never runs. -/
theorem execute_with_recovery_drops_successful_retry :
    (execute_with_recovery opC1 "analyze_binary" 0 none 0 []).1
      = .error ⟨"TimeoutError", "analysis timed out"⟩ ∧
    (create_error_from_exception ⟨"TimeoutError", "analysis timed out"⟩
        "analyze_binary" 0 [] 0).recovery_strategy = .retry ∧
    (create_error_from_exception ⟨"TimeoutError", "analysis timed out"⟩
        "analyze_binary" 0 [] 0).recoverable = true ∧
    opC1 1 none = .ok (PyVal.pyint 42) := by
  refine ⟨?_, ?_, ?_, rfl⟩
  · rw [execute_with_recovery_reraises opC1 "analyze_binary" 0 none 0 [] _ rfl]
  · decide
  · decide

/-- An operation that fails with `TimeoutError` on every invocation. -/
def opC2 : Op := fun _ _ => .error ⟨"TimeoutError", "always failing"⟩

/-- An operation failing exactly like `opC2` on the first invocation
but succeeding on every later one; used to show the result of
`execute_with_recovery` never depends on re-invocations. -/
def opC2' : Op := fun n _ =>
  match n with
  | 0 => .error ⟨"TimeoutError", "always failing"⟩
  | _ + 1 => .ok (PyVal.pyint 99)

/-- C2 evidence: on an always-failing retry-classified operation,
`execute_with_recovery` does re-raise the original failure, but
performs zero re-invocations instead of `maxRetries`: the logged error
still has `retry_count = 0`, and the outcome is identical for `opC2'`,
which differs from `opC2` on every invocation after the first. -/
theorem execute_with_recovery_exhausts_no_retries :
    execute_with_recovery opC2 "analyze_binary" 0 none 0 []
      = (.error ⟨"TimeoutError", "always failing"⟩,
         [create_error_from_exception ⟨"TimeoutError", "always failing"⟩
            "analyze_binary" 0 [] 0]) ∧
    (create_error_from_exception ⟨"TimeoutError", "always failing"⟩
        "analyze_binary" 0 [] 0).retry_count = 0 ∧
    (create_error_from_exception ⟨"TimeoutError", "always failing"⟩
        "analyze_binary" 0 [] 0).max_retries = 3 ∧
    (execute_with_recovery opC2' "analyze_binary" 0 none 0 []).1
      = (execute_with_recovery opC2 "analyze_binary" 0 none 0 []).1 := by
  refine ⟨?_, rfl, rfl, ?_⟩
  · rw [execute_with_recovery_reraises opC2 "analyze_binary" 0 none 0 [] _ rfl]
    rfl
  · rw [execute_with_recovery_reraises opC2 "analyze_binary" 0 none 0 [] _ rfl,
        execute_with_recovery_reraises opC2' "analyze_binary" 0 none 0 [] _ rfl]

/-- C10: when the first invocation fails, `execute_with_recovery`
treats a recovery result of `None` as recovery failure and re-raises
the original exception; an operation whose re-invocations legitimately
succeed with the value `None` is therefore never observed as
recovered — the caller receives the original exception, not the `None`
result. -/
theorem execute_with_recovery_conflates_none_result
    (op : Op) (opname : String) (ac : Nat) (kwargs : Option (List String))
    (now : Nat) (history : List AnalysisError) (e : PyExc)
    (h0 : op 0 kwargs = .error e)
    (_hnone : ∀ n kw, 1 ≤ n → op n kw = .ok PyVal.pynone) :
    (execute_with_recovery op opname ac kwargs now history).1 = .error e := by
  rw [execute_with_recovery_reraises op opname ac kwargs now history e h0]

/-- An operation that fails once with `ConnectionError` and then
legitimately returns Python `None` on every later invocation. -/
def opC10 : Op := fun n _ =>
  match n with
  | 0 => .error ⟨"ConnectionError", "connection reset"⟩
  | _ + 1 => .ok PyVal.pynone

/-- Witness for `execute_with_recovery_conflates_none_result` on a
concrete operation returning `None` after its first failure. -/
theorem execute_with_recovery_conflates_none_result_witness :
    opC10 0 none = .error ⟨"ConnectionError", "connection reset"⟩ ∧
    (∀ n kw, 1 ≤ n → opC10 n kw = .ok PyVal.pynone) ∧
    (execute_with_recovery opC10 "fetch_symbols" 0 none 0 []).1
      = .error ⟨"ConnectionError", "connection reset"⟩ := by
  refine ⟨rfl, ?_, ?_⟩
  · intro n kw hn
    match n, hn with
    | m + 1, _ => rfl
  · exact execute_with_recovery_conflates_none_result opC10 "fetch_symbols"
      0 none 0 [] _ rfl
      (by intro n kw hn; match n, hn with | m + 1, _ => rfl)

/-! ## Bounded error history (C9) -/

/-- The last `n` elements of a list. -/
def lastN {α : Type} (n : Nat) (l : List α) : List α :=
  l.drop (l.length - n)

lemma lastN_of_le {α : Type} {n : Nat} {l : List α} (h : l.length ≤ n) :
    lastN n l = l := by
  simp [lastN, Nat.sub_eq_zero_of_le h]

lemma length_lastN {α : Type} (n : Nat) (l : List α) :
    (lastN n l).length = min n l.length := by
  simp [lastN]
  omega

lemma lastN_append_left {α : Type} {n : Nat} {m : List α} (p : List α)
    (h : n ≤ m.length) : lastN n (p ++ m) = lastN n m := by
  unfold lastN
  have hlen : (p ++ m).length - n = p.length + (m.length - n) := by
    simp [List.length_append]
    omega
  rw [hlen, List.drop_append]

lemma lastN_lastN_append {α : Type} (n : Nat) (l es : List α) :
    lastN n (lastN n l ++ es) = lastN n (l ++ es) := by
  by_cases h : l.length ≤ n
  · rw [lastN_of_le h]
  · have hl : n ≤ (lastN n l ++ es).length := by
      rw [List.length_append, length_lastN]
      omega
    conv_rhs => rw [← List.take_append_drop (l.length - n) l]
    rw [List.append_assoc]
    exact (lastN_append_left (l.take (l.length - n)) hl).symm

lemma log_error_eq_lastN {history : List AnalysisError} (e : AnalysisError)
    (h : history.length ≤ max_history_size) :
    log_error history e = lastN max_history_size (history ++ [e]) := by
  unfold log_error
  by_cases hlt : max_history_size < (history ++ [e]).length
  · rw [if_pos hlt]
    unfold lastN
    have hidx : (history ++ [e]).length - max_history_size = 1 := by
      simp only [List.length_append, List.length_cons, List.length_nil] at hlt ⊢
      omega
    rw [hidx]
  · rw [if_neg hlt]
    exact (lastN_of_le (not_lt.mp hlt)).symm

lemma foldl_log_error_eq_lastN (es : List AnalysisError) :
    ∀ history : List AnalysisError, history.length ≤ max_history_size →
      es.foldl log_error history = lastN max_history_size (history ++ es) := by
  induction es with
  | nil =>
    intro history hh
    rw [List.foldl_nil, List.append_nil, lastN_of_le hh]
  | cons e es ih =>
    intro history hh
    have h1 : (log_error history e).length ≤ max_history_size := by
      rw [log_error_eq_lastN e hh, length_lastN]
      exact Nat.min_le_left _ _
    rw [List.foldl_cons, ih (log_error history e) h1, log_error_eq_lastN e hh,
        lastN_lastN_append, List.append_assoc]
    rfl

/-- C9: the error history never exceeds 1000 entries after any
sequence of appends starting from the empty history; once full, each
append evicts the oldest entry (FIFO); appending 1001 errors to the
empty history therefore leaves exactly the last 1000, so the
first-appended error is gone and the most recent one is retained. -/
theorem error_history_bounded_fifo
    (es history : List AnalysisError) (e : AnalysisError) :
    (es.foldl log_error []).length ≤ max_history_size ∧
    (history.length = max_history_size →
      log_error history e = history.tail ++ [e]) ∧
    (es.length = max_history_size + 1 →
      es.foldl log_error [] = es.tail) := by
  refine ⟨?_, ?_, ?_⟩
  · rw [foldl_log_error_eq_lastN es [] (by simp), length_lastN]
    exact Nat.min_le_left _ _
  · intro hlen
    have hlt : max_history_size < (history ++ [e]).length := by
      simp [List.length_append, hlen]
    unfold log_error
    rw [if_pos hlt,
        List.drop_append_of_le_length (by rw [hlen]; norm_num [max_history_size]),
        List.drop_one]
  · intro hlen
    rw [foldl_log_error_eq_lastN es [] (by simp), List.nil_append]
    unfold lastN
    have h1 : es.length - max_history_size = 1 := by omega
    rw [h1, List.drop_one]

/-- A concrete classified error used in the bounded-history witness. -/
def errC9 : AnalysisError :=
  { error_type := "timeouterror", message := "t", severity := .high
    recoverable := true, recovery_strategy := .retry
    context := ⟨"op", 0, []⟩, timestamp := 0 }

/-- Witness for `error_history_bounded_fifo` on a 1001-element append
sequence and a full 1000-element history. -/
theorem error_history_bounded_fifo_witness :
    (List.replicate (max_history_size + 1) errC9).length = max_history_size + 1 ∧
    (List.replicate max_history_size errC9).length = max_history_size ∧
    ((List.replicate (max_history_size + 1) errC9).foldl log_error []).length
      ≤ max_history_size ∧
    log_error (List.replicate max_history_size errC9) errC9
      = (List.replicate max_history_size errC9).tail ++ [errC9] ∧
    (List.replicate (max_history_size + 1) errC9).foldl log_error []
      = (List.replicate (max_history_size + 1) errC9).tail := by
  have h := error_history_bounded_fifo
    (List.replicate (max_history_size + 1) errC9)
    (List.replicate max_history_size errC9) errC9
  exact ⟨List.length_replicate _ _, List.length_replicate _ _, h.1,
    h.2.1 (List.length_replicate _ _), h.2.2 (List.length_replicate _ _)⟩

end GhidraInsight
